import Mathlib

/-!
Shallow embedding of the Psiphon client datastore (`psiphon/dataStore.go`,
here `src/unnamed/part_001`), covering the parts the claims are about:

* the server entries bucket, the ranked server entries vector, the
  key/value bucket holding the affinity filter memo, and the persistent
  stat buckets;
* `StoreServerEntry` / `StoreServerEntries` / `StreamingStoreServerEntries`,
  `PromoteServerEntry`, `makeServerEntryFilterValue`,
  `hasServerEntryFilterChanged`, `insertRankedServerEntry`;
* the persistent stat queue: `StorePersistentStat`,
  `CountUnreportedPersistentStats`, `TakeOutUnreportedPersistentStats`,
  `PutBackUnreportedPersistentStats`, `ClearReportedPersistentStats`,
  `resetAllPersistentStatsToUnreported`;
* the error-propagation skeletons of `OpenDataStore` and
  `SetSplitTunnelRoutes`.

Modelling conventions:

* A bolt bucket is a sorted association list `List (String × V)`;
  `bucketPut` inserts keeping key order, matching bolt's sorted keyspace.
* The ranked server entries value is stored as one JSON array under one
  key; it is modelled directly as the decoded `List String` (the absent
  key decodes to `[]`, as in `getRankedServerEntries`).
* Byte strings are modelled as `String`.
* External effects that the datastore code only observes (a bolt
  transaction failing, `json.Unmarshal` of an opaque stat key failing,
  the external `ValidateServerEntryFields` verdict) are parameters of the
  corresponding functions; the datastore code never inspects them beyond
  success/failure, so this is faithful.
-/

namespace Psiphon

/-- State tag of a persistent stat record: `"0"` = Unreported, `"1"` =
Reporting (`persistentStatStateUnreported` / `persistentStatStateReporting`,
part_001 lines 1064-1065). -/
inductive StatState
  | unreported
  | reporting
  deriving DecidableEq

/-- The fields of a stored server entry that the datastore code reads:
the primary key `ipAddress`, the `region` used by iterator filters, and
`configurationVersion` used by the replace-vs-keep policy
(`protocol.ServerEntry`, as consumed in part_001). Other fields are
opaque to the datastore and are not modelled. -/
structure ServerEntry where
  ipAddress : String
  region : String
  configurationVersion : Int
  deriving DecidableEq

/-- `protocol.ServerEntryFields` as consumed by `StoreServerEntry`:
the same indexed fields, plus `isValid`, the verdict of the external
validator. Modelled from the spec: `ValidateServerEntryFields` is an
external pure validator (spec section 1 and 6) whose acceptance criteria the
spec does not constrain, so its verdict is carried as an attribute of the
fields. -/
structure ServerEntryFields where
  ipAddress : String
  region : String
  configurationVersion : Int
  isValid : Bool
  deriving DecidableEq

/-- `json.Marshal` of validated fields followed by `json.Unmarshal`
yields the record with the same indexed fields. -/
def fieldsToServerEntry (f : ServerEntryFields) : ServerEntry :=
  { ipAddress := f.ipAddress
    region := f.region
    configurationVersion := f.configurationVersion }

/-- A value stored in the server entries bucket: either bytes that
`json.Unmarshal` decodes to a server entry, or bytes that fail to decode
(corruption). -/
inductive StoredValue
  | entry (se : ServerEntry)
  | corrupt (bytes : String)
  deriving DecidableEq

/-- Outcome of `json.Unmarshal` on a stored server entries value
(part_001 lines 264-266). -/
def decodeStoredValue : StoredValue → Option ServerEntry
  | StoredValue.entry se => some se
  | StoredValue.corrupt _ => none

/-- The slice of `*Config` the modelled operations read. Only
`EgressRegion` feeds the affinity filter value (part_001 lines 399-406). -/
structure Config where
  egressRegion : String
  deriving DecidableEq

/-- `bolt` bucket `Get`: first binding of the key, if any. -/
def lookupBucket {V : Type} : List (String × V) → String → Option V
  | [], _ => none
  | (k, v) :: rest, key => if k = key then some v else lookupBucket rest key

/-- Lexicographic order on key characters. Bolt orders keys by their
bytes; UTF-8 byte order coincides with codepoint order, so comparing the
codepoint sequences gives the same order. -/
def keyCharsLt : List Char → List Char → Bool
  | [], [] => false
  | [], _ :: _ => true
  | _ :: _, [] => false
  | a :: as, b :: bs =>
    if a.toNat < b.toNat then true
    else if b.toNat < a.toNat then false
    else keyCharsLt as bs

/-- Bolt's key order. -/
def keyLt (a b : String) : Bool := keyCharsLt a.data b.data

/-- `bolt` bucket `Put`: replace the binding if the key is present,
otherwise insert it at its sorted position (bolt keeps keys sorted). -/
def bucketPut {V : Type} : List (String × V) → String → V → List (String × V)
  | [], key, value => [(key, value)]
  | (k, v) :: rest, key, value =>
    if k = key then (key, value) :: rest
    else if keyLt key k then (key, value) :: (k, v) :: rest
    else (k, v) :: bucketPut rest key value

/-- `bolt` bucket `Delete`: remove the binding of the key, if present. -/
def bucketDelete {V : Type} : List (String × V) → String → List (String × V)
  | [], _ => []
  | (k, v) :: rest, key => if k = key then rest else (k, v) :: bucketDelete rest key

/-- `rankedServerEntryCount` (part_001 line 53). -/
def rankedServerEntryCount : Nat := 100

/-- `remoteServerListStatsBucket` (part_001 line 48). -/
def remoteServerListStatsBucket : String := "remoteServerListStats"

/-- `PERSISTENT_STAT_TYPE_REMOTE_SERVER_LIST` (part_001 line 60). -/
def PERSISTENT_STAT_TYPE_REMOTE_SERVER_LIST : String := remoteServerListStatsBucket

/-- `persistentStatTypes` (part_001 lines 1067-1069). -/
def persistentStatTypes : List String := [PERSISTENT_STAT_TYPE_REMOTE_SERVER_LIST]

/-- `DATA_STORE_LAST_SERVER_ENTRY_FILTER_KEY` (part_001 line 59). -/
def DATA_STORE_LAST_SERVER_ENTRY_FILTER_KEY : String := "lastServerEntryFilter"

/-- The datastore state the claims are about: the four buckets the
modelled operations touch. `ranked` is the decoded ranked server entries
array; `statBuckets` maps each persistent stat type to its bucket. -/
structure DataStore where
  serverEntries : List (String × StoredValue)
  ranked : List String
  keyValues : List (String × String)
  statBuckets : List (String × List (String × StatState))
  deriving DecidableEq

/-- A freshly opened datastore: all required buckets exist and are empty
(`OpenDataStore` bucket bootstrap, part_001 lines 124-145). -/
def emptyDataStore : DataStore :=
  { serverEntries := []
    ranked := []
    keyValues := []
    statBuckets := [(remoteServerListStatsBucket, [])] }

/-- `tx.Bucket([]byte(statType))` for a registered stat type. -/
def statBucketGet (s : DataStore) (t : String) : List (String × StatState) :=
  (lookupBucket s.statBuckets t).getD []

/-- Write back the bucket of a registered stat type. -/
def statBucketSet (s : DataStore) (t : String) (b : List (String × StatState)) : DataStore :=
  { s with statBuckets := bucketPut s.statBuckets t b }

/-- Go map access `stats[statType]` on a `map[string][][]byte`: the nil
map entry reads as the empty list. -/
def statsGet (stats : List (String × List String)) (t : String) : List String :=
  (lookupBucket stats t).getD []

/-- The de-duplication loop of `insertRankedServerEntry` (part_001 lines
483-489): remove the first occurrence of `serverEntryId`, then `break`. -/
def removeRankedServerEntryId : List String → String → List String
  | [], _ => []
  | x :: xs, serverEntryId =>
    if x = serverEntryId then xs else x :: removeRankedServerEntryId xs serverEntryId

/-- `insertRankedServerEntry` (part_001 lines 466-508) acting on the
decoded ranked array.

* lines 483-489: remove an existing occurrence of `serverEntryId`;
* lines 493-495: if below the cap, append a placeholder `""`;
* lines 496-498: clamp `position` to the last index;
* line 499, `copy(r[position+1:], r[position:])`: entries
  `r[position..len-2]` move one slot right, the previous tail entry is
  overwritten — so the suffix becomes `(r.drop position).dropLast`;
* line 500: `r[position] = serverEntryId`. -/
def insertRankedServerEntry (l : List String) (serverEntryId : String) (position : Nat) :
    List String :=
  let afterRemove := removeRankedServerEntryId l serverEntryId
  let grown :=
    if afterRemove.length < rankedServerEntryCount then afterRemove ++ [""] else afterRemove
  let pos := if grown.length ≤ position then grown.length - 1 else position
  grown.take pos ++ [serverEntryId] ++ (grown.drop pos).dropLast

/-- `existingConfigurationVersion` after the decode attempt
(part_001 lines 261-269): `-1` when there is no existing value or it does
not decode. -/
def existingConfigurationVersionOf (existingData : Option StoredValue) : Int :=
  match existingData with
  | none => -1
  | some v =>
    match decodeStoredValue v with
    | some se => se.configurationVersion
    | none => -1

/-- The `update` condition of `StoreServerEntry` (part_001 lines 271-273):
`exists := existingConfigurationVersion > -1`,
`newer := exists && existingConfigurationVersion < new version`,
`update := !exists || replaceIfExists || newer`. -/
def storeServerEntryUpdateDecision
    (existingData : Option StoredValue) (newVersion : Int) (replaceIfExists : Bool) : Bool :=
  let ecv := existingConfigurationVersionOf existingData
  let existsB := decide (ecv > -1)
  let newer := existsB && decide (ecv < newVersion)
  !existsB || replaceIfExists || newer

/-- `StoreServerEntry` (part_001 lines 235-306). Returns the error result
and the post state. Validation failure returns before the transaction;
inside one `Update`, when the update condition holds the record is written
at its IP address and the IP is inserted into the ranked vector at
position 1. -/
def StoreServerEntry (s : DataStore) (serverEntryFields : ServerEntryFields)
    (replaceIfExists : Bool) : Option String × DataStore :=
  if serverEntryFields.isValid = false then (some "invalid server entry", s)
  else
    let ipAddress := serverEntryFields.ipAddress
    let existingData := lookupBucket s.serverEntries ipAddress
    if storeServerEntryUpdateDecision existingData
        serverEntryFields.configurationVersion replaceIfExists then
      (none,
        { s with
          serverEntries :=
            bucketPut s.serverEntries ipAddress
              (StoredValue.entry (fieldsToServerEntry serverEntryFields))
          ranked := insertRankedServerEntry s.ranked ipAddress 1 })
    else (none, s)

/-- `StoreServerEntries` (part_001 lines 310-323): one independent
transaction per entry, in list order; the first error is returned and
stops the loop. -/
def StoreServerEntries (s : DataStore) (serverEntries : List ServerEntryFields)
    (replaceIfExists : Bool) : Option String × DataStore :=
  match serverEntries with
  | [] => (none, s)
  | f :: rest =>
    let r := StoreServerEntry s f replaceIfExists
    match r.1 with
    | some e => (some e, r.2)
    | none => StoreServerEntries r.2 rest replaceIfExists

/-- `StreamingStoreServerEntries` (part_001 lines 327-355): the decoder
stream is modelled as the list of `Next()` outcomes (a decode error stops
the loop with that error; the list end is the decoder returning nil). -/
def StreamingStoreServerEntries (s : DataStore)
    (stream : List (Except String ServerEntryFields)) (replaceIfExists : Bool) :
    Option String × DataStore :=
  match stream with
  | [] => (none, s)
  | Except.error e :: _ => (some e, s)
  | Except.ok f :: rest =>
    let r := StoreServerEntry s f replaceIfExists
    match r.1 with
    | some e => (some e, r.2)
    | none => StreamingStoreServerEntries r.2 rest replaceIfExists

/-- `makeServerEntryFilterValue` (part_001 lines 399-406): the filter
value is the egress region bytes. -/
def makeServerEntryFilterValue (config : Config) : String :=
  config.egressRegion

/-- `PromoteServerEntry` (part_001 lines 361-397), one `Update`: when no
record exists for the IP an alert is logged and nothing changes; otherwise
the IP is inserted into the ranked vector at position 0 and the current
filter value is written to the memo key in the key/value bucket. -/
def PromoteServerEntry (s : DataStore) (config : Config) (ipAddress : String) : DataStore :=
  match lookupBucket s.serverEntries ipAddress with
  | none => s
  | some _ =>
    { s with
      ranked := insertRankedServerEntry s.ranked ipAddress 0
      keyValues :=
        bucketPut s.keyValues DATA_STORE_LAST_SERVER_ENTRY_FILTER_KEY
          (makeServerEntryFilterValue config) }

/-- `hasServerEntryFilterChanged` (part_001 lines 408-433). `Get` of the
memo key returns nil when the key was never set, and
`bytes.Compare` compares byte contents treating a nil slice as the empty
byte string — so the comparison made by the code is between
`previousFilter.getD ""` and the current filter value. -/
def hasServerEntryFilterChanged (s : DataStore) (config : Config) : Bool :=
  let currentFilter := makeServerEntryFilterValue config
  let previousFilter := lookupBucket s.keyValues DATA_STORE_LAST_SERVER_ENTRY_FILTER_KEY
  if previousFilter.getD "" = currentFilter then false else true

/-- `StorePersistentStat` (part_001 lines 1081-1098): reject an
unregistered stat type, otherwise write `Unreported` for the stat key. -/
def StorePersistentStat (s : DataStore) (statType : String) (stat : String) :
    Option String × DataStore :=
  if statType ∈ persistentStatTypes then
    (none, statBucketSet s statType
      (bucketPut (statBucketGet s statType) stat StatState.unreported))
  else (some "invalid persistent stat type", s)

/-- The per-bucket cursor loop of `CountUnreportedPersistentStats`
(part_001 lines 1112-1117): on the first record whose value is
`Unreported` the counter is incremented and the loop `break`s, so each
bucket contributes at most 1. -/
def countBucketUnreported : List (String × StatState) → Nat
  | [] => 0
  | (_, value) :: rest =>
    if value = StatState.unreported then 1 else countBucketUnreported rest

/-- `CountUnreportedPersistentStats` (part_001 lines 1102-1128): sum the
per-bucket counts over the registered stat types. -/
def CountUnreportedPersistentStats (s : DataStore) : Nat :=
  (persistentStatTypes.map (fun t => countBucketUnreported (statBucketGet s t))).sum

/-- The cursor scan of `TakeOutUnreportedPersistentStats` (part_001 lines
1146-1176): walk the bucket in key order threading the running `count`;
stop when `count >= maxCount`; skip keys whose bytes do not parse as JSON
(`jsonOK key = false`, the outcome of the test `json.Unmarshal`); collect
keys in state `Unreported`, incrementing `count`. Returns the collected
keys and the final count. -/
def takeOutScan (jsonOK : String → Bool) (maxCount : Nat) :
    List (String × StatState) → Nat → List String × Nat
  | [], count => ([], count)
  | (key, value) :: rest, count =>
    if maxCount ≤ count then ([], count)
    else if jsonOK key = false then takeOutScan jsonOK maxCount rest count
    else if value = StatState.unreported then
      let r := takeOutScan jsonOK maxCount rest (count + 1)
      (key :: r.1, r.2)
    else takeOutScan jsonOK maxCount rest count

/-- `TakeOutUnreportedPersistentStats` (part_001 lines 1135-1194), one
`Update`: for each registered type, scan the bucket collecting up to
`maxCount` unreported parsable keys in total, then set each collected key
to `Reporting`; a map entry is created only when keys were collected for
that type. `jsonOK` is the external `json.Unmarshal` verdict on a key. -/
def TakeOutUnreportedPersistentStats (jsonOK : String → Bool) (s : DataStore)
    (maxCount : Nat) : List (String × List String) × DataStore :=
  let step := fun (acc : List (String × List String) × DataStore × Nat) (t : String) =>
    let b := statBucketGet acc.2.1 t
    let r := takeOutScan jsonOK maxCount b acc.2.2
    let b2 := r.1.foldl (fun bb k => bucketPut bb k StatState.reporting) b
    (if r.1 = [] then acc.1 else acc.1 ++ [(t, r.1)], statBucketSet acc.2.1 t b2, r.2)
  let r := persistentStatTypes.foldl step ([], s, 0)
  (r.1, r.2.1)

/-- `PutBackUnreportedPersistentStats` (part_001 lines 1198-1221), one
`Update`: for each registered type, write `Unreported` for every key
listed in the map. -/
def PutBackUnreportedPersistentStats (s : DataStore)
    (stats : List (String × List String)) : DataStore :=
  persistentStatTypes.foldl
    (fun st t =>
      statBucketSet st t
        ((statsGet stats t).foldl (fun b k => bucketPut b k StatState.unreported)
          (statBucketGet st t)))
    s

/-- `ClearReportedPersistentStats` (part_001 lines 1225-1248), one
`Update`: for each registered type, delete every key listed in the map. -/
def ClearReportedPersistentStats (s : DataStore)
    (stats : List (String × List String)) : DataStore :=
  persistentStatTypes.foldl
    (fun st t =>
      statBucketSet st t
        ((statsGet stats t).foldl (fun b k => bucketDelete b k) (statBucketGet st t)))
    s

/-- `resetAllPersistentStatsToUnreported` (part_001 lines 1254-1286), one
`Update`: for each registered type, collect every key of the bucket and
then write `Unreported` for each. -/
def resetAllPersistentStatsToUnreported (s : DataStore) : DataStore :=
  persistentStatTypes.foldl
    (fun st t =>
      let b := statBucketGet st t
      let resetKeys := b.map Prod.fst
      statBucketSet st t
        (resetKeys.foldl (fun bb k => bucketPut bb k StatState.unreported) b))
    s

/-- Total number of persistent stat records stored across the registered
stat types (the quantity Claim C8 bounds `maxCount` by). -/
def totalPersistentStatRecords (s : DataStore) : Nat :=
  (persistentStatTypes.map (fun t => (statBucketGet s t).length)).sum

/-- The body of the `Update` closure of `SetSplitTunnelRoutes` (part_001
lines 930-937), parametrized on the outcomes of its two bucket `Put`s:
`err := etags.Put(region, etag)` is immediately overwritten by
`err = data.Put(region, data)`, and `err` is returned — so only the second
`Put`'s outcome is returned and the first is discarded. -/
def setSplitTunnelRoutesTxBody (etagPutResult : Option String)
    (dataPutResult : Option String) : Option String :=
  dataPutResult

/-- The result of `OpenDataStore` (part_001 lines 70-174), parametrized on
the outcomes of the underlying storage operations:

* `openResult`: the outcome of the `bolt.Open`/`SynchronousCheck` retry
  loop (lines 88-122) — its failure is wrapped and returned;
* `createBucketsResult`: the bucket-bootstrap `Update` (lines 124-148);
* `deleteObsoleteBucketResult`: the obsolete-bucket `Update` (lines
  152-165; a `DeleteBucket` failure inside is only logged, so this is the
  transaction-level outcome);
* `resetResult`: the outcome of `resetAllPersistentStatsToUnreported`,
  which line 171 discards with `_ =`: both of its branches below return
  success. -/
def openDataStoreResult (openResult : Option String) (createBucketsResult : Option String)
    (deleteObsoleteBucketResult : Option String) (resetResult : Option String) :
    Option String :=
  match openResult with
  | some e => some ("failed to open database: " ++ e)
  | none =>
    match createBucketsResult with
    | some e => some ("failed to create buckets: " ++ e)
    | none =>
      match deleteObsoleteBucketResult with
      | some e => some ("failed to create buckets: " ++ e)
      | none =>
        match resetResult with
        | some _ => none
        | none => none

/-- The operations of Claim C1's operation sequences: server entry store,
promote, iterator creation (`NewServerEntryIterator` reads the datastore
inside `View`s and mutates nothing), and the persistent stat queue calls. -/
inductive DataStoreOp
  | storeEntry (fields : ServerEntryFields) (replaceIfExists : Bool)
  | promote (config : Config) (ipAddress : String)
  | newIterator (config : Config)
  | storeStat (statType : String) (stat : String)
  | takeOutStats (jsonOK : String → Bool) (maxCount : Nat)
  | putBackStats (stats : List (String × List String))
  | clearStats (stats : List (String × List String))
  | countStats
  | resetStats

/-- State transition of one datastore operation (read-only operations
leave the state unchanged). -/
def applyDataStoreOp (s : DataStore) : DataStoreOp → DataStore
  | DataStoreOp.storeEntry f r => (StoreServerEntry s f r).2
  | DataStoreOp.promote c ip => PromoteServerEntry s c ip
  | DataStoreOp.newIterator _ => s
  | DataStoreOp.storeStat t st => (StorePersistentStat s t st).2
  | DataStoreOp.takeOutStats j m => (TakeOutUnreportedPersistentStats j s m).2
  | DataStoreOp.putBackStats st => PutBackUnreportedPersistentStats s st
  | DataStoreOp.clearStats st => ClearReportedPersistentStats s st
  | DataStoreOp.countStats => s
  | DataStoreOp.resetStats => resetAllPersistentStatsToUnreported s

/-- The update condition exactly as Claim C3 states it (refinement
definition following the claim's words, for comparison with
`storeServerEntryUpdateDecision`): write iff no decodable existing record
is present, or `replaceIfExists`, or the existing record's configuration
version is strictly less than the new one; an undecodable existing value
counts as absent. -/
def claimC3ConditionAsStated (existingData : Option StoredValue) (newVersion : Int)
    (replaceIfExists : Bool) : Bool :=
  let decodable :=
    match existingData with
    | none => false
    | some v => (decodeStoredValue v).isSome
  let strictlyNewer :=
    match existingData with
    | none => false
    | some v =>
      match decodeStoredValue v with
      | none => false
      | some se => decide (se.configurationVersion < newVersion)
  !decodable || replaceIfExists || strictlyNewer

/-- The update condition as Claim C3 must be amended (refinement
definition following the amended claim's words): an existing record counts
as present only when it decodes AND its configuration version is greater
than `-1`; write iff no such record is present, or `replaceIfExists`, or
the present record's version is strictly less than the new one. -/
def amendedC3Condition (existingData : Option StoredValue) (newVersion : Int)
    (replaceIfExists : Bool) : Bool :=
  let present :=
    match existingData with
    | none => false
    | some v =>
      match decodeStoredValue v with
      | none => false
      | some se => decide (se.configurationVersion > -1)
  let presentAndNewer :=
    match existingData with
    | none => false
    | some v =>
      match decodeStoredValue v with
      | none => false
      | some se => decide (se.configurationVersion > -1) && decide (se.configurationVersion < newVersion)
  !present || replaceIfExists || presentAndNewer

/-- Relay `A` of the Claim C4 scenario (region CA, version 1, validated). -/
def relayA : ServerEntryFields :=
  { ipAddress := "192.0.2.1", region := "CA", configurationVersion := 1, isValid := true }

/-- Relay `B` of the Claim C4 scenario (region US, version 1, validated). -/
def relayB : ServerEntryFields :=
  { ipAddress := "192.0.2.2", region := "US", configurationVersion := 1, isValid := true }

/-- Relay `C` of the Claim C4 scenario (region CA, version 1, validated). -/
def relayC : ServerEntryFields :=
  { ipAddress := "192.0.2.3", region := "CA", configurationVersion := 1, isValid := true }

/-- Relay fields rejected by the external validator (used by Claim C10's
witness). -/
def invalidRelay : ServerEntryFields :=
  { ipAddress := "not-an-ip", region := "", configurationVersion := 1, isValid := false }

/-- Claim C4's scenario: open an empty store, then store relays `A`, `B`,
`C` in that order with `replaceIfExists = false`. -/
def c4FinalState : DataStore :=
  (StoreServerEntry
    (StoreServerEntry
      (StoreServerEntry emptyDataStore relayA false).2
      relayB false).2
    relayC false).2

/-- A datastore holding one server entry, used by Claim C2's witness. -/
def c2State : DataStore :=
  { serverEntries :=
      [("10.1.1.1",
        StoredValue.entry
          { ipAddress := "10.1.1.1", region := "CA", configurationVersion := 1 })]
    ranked := ["10.1.1.1"]
    keyValues := []
    statBuckets := [(remoteServerListStatsBucket, [])] }

/-- The datastore of Claim C3's counterexample: the stored value at the
IP decodes to a server entry whose configuration version is `-1` (the
bytes decode fine, so the claim counts the record as present). -/
def c3State : DataStore :=
  { serverEntries :=
      [("192.0.2.7",
        StoredValue.entry
          { ipAddress := "192.0.2.7", region := "CA", configurationVersion := -1 })]
    ranked := []
    keyValues := []
    statBuckets := [(remoteServerListStatsBucket, [])] }

/-- The fields of Claim C3's counterexample: the same relay re-imported
with the same configuration version `-1`, accepted by the validator. -/
def c3Fields : ServerEntryFields :=
  { ipAddress := "192.0.2.7", region := "CA", configurationVersion := -1, isValid := true }

/-- Claim C5's scenario up to the crash: store stats `stat1` and `stat2`
of the registered type on an empty datastore. -/
def c5StoredState : DataStore :=
  (StorePersistentStat
    (StorePersistentStat emptyDataStore PERSISTENT_STAT_TYPE_REMOTE_SERVER_LIST "stat1").2
    PERSISTENT_STAT_TYPE_REMOTE_SERVER_LIST "stat2").2

/-- Claim C5's scenario after the crash: take both stats out (both become
`Reporting`), crash without `Clear`/`PutBack`, reopen — the reopen runs
`resetAllPersistentStatsToUnreported`, so both records are `Unreported`
again. -/
def c5AfterReopenState : DataStore :=
  resetAllPersistentStatsToUnreported
    (TakeOutUnreportedPersistentStats (fun _ => true) c5StoredState 10).2

/-- A datastore whose single stat record is in state `Reporting` (it was
taken out earlier), used by Claim C8's witness. -/
def c8State : DataStore :=
  { serverEntries := []
    ranked := []
    keyValues := []
    statBuckets := [(remoteServerListStatsBucket, [("statA", StatState.reporting)])] }

/-- The taken-out record map put back in Claim C8's witness. -/
def c8Taken : List (String × List String) :=
  [(remoteServerListStatsBucket, ["statA"])]

/-! ### Bucket lemmas -/

theorem lookupBucket_bucketPut_self {V : Type} (b : List (String × V)) (k : String) (v : V) :
    lookupBucket (bucketPut b k v) k = some v := by
  induction b with
  | nil => simp [bucketPut, lookupBucket]
  | cons p rest ih =>
    obtain ⟨k0, v0⟩ := p
    simp only [bucketPut]
    by_cases h1 : k0 = k
    · simp [h1, lookupBucket]
    · rw [if_neg h1]
      by_cases h2 : keyLt k k0 = true
      · rw [if_pos h2]
        simp [lookupBucket]
      · rw [if_neg h2]
        simpa [lookupBucket, h1] using ih

theorem lookupBucket_bucketPut_ne {V : Type} (b : List (String × V)) (k key : String) (v : V)
    (h : key ≠ k) : lookupBucket (bucketPut b k v) key = lookupBucket b key := by
  induction b with
  | nil => simp [bucketPut, lookupBucket, Ne.symm h]
  | cons p rest ih =>
    obtain ⟨k0, v0⟩ := p
    simp only [bucketPut]
    by_cases h1 : k0 = k
    · subst h1
      simp [lookupBucket, Ne.symm h]
    · rw [if_neg h1]
      by_cases h2 : keyLt k k0 = true
      · rw [if_pos h2]
        simp [lookupBucket, Ne.symm h]
      · rw [if_neg h2]
        simp only [lookupBucket, ih]

theorem mem_of_lookupBucket {V : Type} {b : List (String × V)} {k : String} {v : V}
    (h : lookupBucket b k = some v) : (k, v) ∈ b := by
  induction b with
  | nil => simp [lookupBucket] at h
  | cons p rest ih =>
    obtain ⟨k0, v0⟩ := p
    simp only [lookupBucket] at h
    by_cases h1 : k0 = k
    · rw [if_pos h1] at h
      subst h1
      injection h with h
      subst h
      exact List.mem_cons_self _ _
    · rw [if_neg h1] at h
      exact List.mem_cons_of_mem _ (ih h)

/-! ### Ranked vector lemmas -/

theorem removeRankedServerEntryId_sublist (l : List String) (serverEntryId : String) :
    (removeRankedServerEntryId l serverEntryId).Sublist l := by
  induction l with
  | nil => simp [removeRankedServerEntryId]
  | cons x xs ih =>
    simp only [removeRankedServerEntryId]
    by_cases h : x = serverEntryId
    · rw [if_pos h]
      exact List.sublist_cons_self x xs
    · rw [if_neg h]
      exact List.Sublist.cons₂ x ih

theorem not_mem_removeRankedServerEntryId (l : List String) (serverEntryId : String)
    (h : l.Nodup) : serverEntryId ∉ removeRankedServerEntryId l serverEntryId := by
  induction l with
  | nil => simp [removeRankedServerEntryId]
  | cons x xs ih =>
    obtain ⟨hx, hxs⟩ := List.nodup_cons.mp h
    simp only [removeRankedServerEntryId]
    by_cases hid : x = serverEntryId
    · rw [if_pos hid]
      subst hid
      exact hx
    · rw [if_neg hid]
      intro hmem
      rcases List.mem_cons.mp hmem with h1 | h2
      · exact hid h1.symm
      · exact ih hxs h2

/-- Shape of the insert when the array was grown by a placeholder
(`len < cap` branch): the placeholder is the tail that `dropLast`
removes, so the result is an insertion into the de-duplicated list. -/
theorem insert_shape_append (l1 : List String) (serverEntryId : String) (pos : Nat)
    (hpos : pos ≤ l1.length) (hnd : l1.Nodup) (hid : serverEntryId ∉ l1) :
    (((l1 ++ [""]).take pos ++ [serverEntryId] ++ ((l1 ++ [""]).drop pos).dropLast).length
        = l1.length + 1) ∧
      ((l1 ++ [""]).take pos ++ [serverEntryId] ++ ((l1 ++ [""]).drop pos).dropLast).Nodup := by
  rw [List.take_append_of_le_length hpos, List.drop_append_of_le_length hpos,
    List.dropLast_concat]
  constructor
  · simp only [List.length_append, List.length_take, List.length_drop,
      List.length_singleton]
    omega
  · have heq : List.take pos l1 ++ [serverEntryId] ++ List.drop pos l1
        = List.take pos l1 ++ serverEntryId :: List.drop pos l1 := by simp
    rw [heq]
    have hperm : (List.take pos l1 ++ serverEntryId :: List.drop pos l1).Perm
        (serverEntryId :: (List.take pos l1 ++ List.drop pos l1)) := List.perm_middle
    rw [List.take_append_drop] at hperm
    exact hperm.nodup_iff.mpr (List.nodup_cons.mpr ⟨hid, hnd⟩)

/-- Shape of the insert at the cap (`len = cap` branch): the previous
tail entry is evicted by the shift, so the result keeps the length and
inserts into a sublist of the de-duplicated list. -/
theorem insert_shape_cap (l1 : List String) (serverEntryId : String) (pos : Nat)
    (hpos : pos < l1.length) (hnd : l1.Nodup) (hid : serverEntryId ∉ l1) :
    ((l1.take pos ++ [serverEntryId] ++ (l1.drop pos).dropLast).length = l1.length) ∧
      (l1.take pos ++ [serverEntryId] ++ (l1.drop pos).dropLast).Nodup := by
  constructor
  · simp only [List.length_append, List.length_take, List.length_dropLast,
      List.length_drop, List.length_singleton]
    omega
  · have hsub : (l1.take pos ++ (l1.drop pos).dropLast).Sublist (l1.take pos ++ l1.drop pos) :=
      List.Sublist.append_left (List.dropLast_sublist _) _
    rw [List.take_append_drop] at hsub
    have hnd2 : (l1.take pos ++ (l1.drop pos).dropLast).Nodup := hsub.nodup hnd
    have hid2 : serverEntryId ∉ l1.take pos ++ (l1.drop pos).dropLast :=
      fun hmem => hid (hsub.subset hmem)
    have heq : l1.take pos ++ [serverEntryId] ++ (l1.drop pos).dropLast
        = l1.take pos ++ serverEntryId :: (l1.drop pos).dropLast := by simp
    rw [heq]
    exact List.perm_middle.nodup_iff.mpr (List.nodup_cons.mpr ⟨hid2, hnd2⟩)

/-- `insertRankedServerEntry` preserves the ranker invariants: the result
never exceeds the cap and never holds a duplicate. -/
theorem insertRankedServerEntry_bound (l : List String) (serverEntryId : String)
    (position : Nat) (hlen : l.length ≤ rankedServerEntryCount) (hnd : l.Nodup) :
    (insertRankedServerEntry l serverEntryId position).length ≤ rankedServerEntryCount ∧
      (insertRankedServerEntry l serverEntryId position).Nodup := by
  have hs := removeRankedServerEntryId_sublist l serverEntryId
  have h1len : (removeRankedServerEntryId l serverEntryId).length ≤ l.length := hs.length_le
  have h1nd : (removeRankedServerEntryId l serverEntryId).Nodup := hs.nodup hnd
  have hid : serverEntryId ∉ removeRankedServerEntryId l serverEntryId :=
    not_mem_removeRankedServerEntryId l serverEntryId hnd
  have h100 : rankedServerEntryCount = 100 := rfl
  by_cases hc : (removeRankedServerEntryId l serverEntryId).length < rankedServerEntryCount
  · simp only [insertRankedServerEntry]
    rw [if_pos hc]
    have hpos :
        (if (removeRankedServerEntryId l serverEntryId ++ [""]).length ≤ position
          then (removeRankedServerEntryId l serverEntryId ++ [""]).length - 1
          else position) ≤ (removeRankedServerEntryId l serverEntryId).length := by
      split
      · simp
      · rename_i hp
        simp only [List.length_append, List.length_singleton] at hp
        omega
    obtain ⟨hlen2, hnd2⟩ :=
      insert_shape_append (removeRankedServerEntryId l serverEntryId) serverEntryId _
        hpos h1nd hid
    refine ⟨?_, hnd2⟩
    rw [hlen2]
    omega
  · simp only [insertRankedServerEntry]
    rw [if_neg hc]
    have hfull : (removeRankedServerEntryId l serverEntryId).length = rankedServerEntryCount := by
      omega
    have hpos :
        (if (removeRankedServerEntryId l serverEntryId).length ≤ position
          then (removeRankedServerEntryId l serverEntryId).length - 1
          else position) < (removeRankedServerEntryId l serverEntryId).length := by
      split
      · omega
      · rename_i hp
        omega
    obtain ⟨hlen2, hnd2⟩ :=
      insert_shape_cap (removeRankedServerEntryId l serverEntryId) serverEntryId _
        hpos h1nd hid
    refine ⟨?_, hnd2⟩
    rw [hlen2]
    omega

/-- Inserting at position 0 always puts the id at the head. -/
theorem insertRankedServerEntry_zero_head (l : List String) (serverEntryId : String) :
    (insertRankedServerEntry l serverEntryId 0).head? = some serverEntryId := by
  simp only [insertRankedServerEntry]
  set grown :=
    if (removeRankedServerEntryId l serverEntryId).length < rankedServerEntryCount
    then removeRankedServerEntryId l serverEntryId ++ [""]
    else removeRankedServerEntryId l serverEntryId with hg
  have hpos : (if grown.length ≤ 0 then grown.length - 1 else 0) = 0 := by
    split
    · rename_i h
      omega
    · rfl
  rw [hpos]
  simp

/-! ### Ranked-vector footprint of each operation -/

theorem StoreServerEntry_ranked_cases (s : DataStore) (f : ServerEntryFields) (r : Bool) :
    (StoreServerEntry s f r).2.ranked = s.ranked ∨
      (StoreServerEntry s f r).2.ranked = insertRankedServerEntry s.ranked f.ipAddress 1 := by
  simp only [StoreServerEntry]
  split
  · left; rfl
  · split
    · right; rfl
    · left; rfl

theorem PromoteServerEntry_ranked_cases (s : DataStore) (c : Config) (ip : String) :
    (PromoteServerEntry s c ip).ranked = s.ranked ∨
      (PromoteServerEntry s c ip).ranked = insertRankedServerEntry s.ranked ip 0 := by
  simp only [PromoteServerEntry]
  split
  · left; rfl
  · right; rfl

theorem StorePersistentStat_ranked (s : DataStore) (t st : String) :
    (StorePersistentStat s t st).2.ranked = s.ranked := by
  simp only [StorePersistentStat]
  split <;> rfl

theorem TakeOutUnreportedPersistentStats_ranked (j : String → Bool) (s : DataStore) (m : Nat) :
    (TakeOutUnreportedPersistentStats j s m).2.ranked = s.ranked := rfl

theorem PutBackUnreportedPersistentStats_ranked (s : DataStore)
    (st : List (String × List String)) :
    (PutBackUnreportedPersistentStats s st).ranked = s.ranked := rfl

theorem ClearReportedPersistentStats_ranked (s : DataStore)
    (st : List (String × List String)) :
    (ClearReportedPersistentStats s st).ranked = s.ranked := rfl

theorem resetAllPersistentStatsToUnreported_ranked (s : DataStore) :
    (resetAllPersistentStatsToUnreported s).ranked = s.ranked := rfl

/-- Every datastore operation preserves the ranker invariants. -/
theorem applyDataStoreOp_rankedBound (s : DataStore) (op : DataStoreOp)
    (h : s.ranked.length ≤ rankedServerEntryCount ∧ s.ranked.Nodup) :
    (applyDataStoreOp s op).ranked.length ≤ rankedServerEntryCount ∧
      (applyDataStoreOp s op).ranked.Nodup := by
  cases op with
  | storeEntry f r =>
    rcases StoreServerEntry_ranked_cases s f r with heq | heq <;>
      simp only [applyDataStoreOp, heq]
    · exact h
    · exact insertRankedServerEntry_bound _ _ _ h.1 h.2
  | promote c ip =>
    rcases PromoteServerEntry_ranked_cases s c ip with heq | heq <;>
      simp only [applyDataStoreOp, heq]
    · exact h
    · exact insertRankedServerEntry_bound _ _ _ h.1 h.2
  | newIterator c => exact h
  | storeStat t st =>
    simpa only [applyDataStoreOp, StorePersistentStat_ranked] using h
  | takeOutStats j m =>
    simpa only [applyDataStoreOp, TakeOutUnreportedPersistentStats_ranked] using h
  | putBackStats st =>
    simpa only [applyDataStoreOp, PutBackUnreportedPersistentStats_ranked] using h
  | clearStats st =>
    simpa only [applyDataStoreOp, ClearReportedPersistentStats_ranked] using h
  | countStats => exact h
  | resetStats =>
    simpa only [applyDataStoreOp, resetAllPersistentStatsToUnreported_ranked] using h

/-- Claim C1: for every sequence of operations (StoreServerEntry,
PromoteServerEntry, iterator creation, stat-queue calls) starting from an
empty datastore, the ranked server entry vector has length at most 100
and contains no duplicate IP addresses. -/
theorem claimC1 (ops : List DataStoreOp) :
    (ops.foldl applyDataStoreOp emptyDataStore).ranked.length ≤ 100 ∧
      (ops.foldl applyDataStoreOp emptyDataStore).ranked.Nodup := by
  have main : ∀ (l : List DataStoreOp) (s : DataStore),
      s.ranked.length ≤ rankedServerEntryCount ∧ s.ranked.Nodup →
      (l.foldl applyDataStoreOp s).ranked.length ≤ rankedServerEntryCount ∧
        (l.foldl applyDataStoreOp s).ranked.Nodup := by
    intro l
    induction l with
    | nil =>
      intro s h
      simpa using h
    | cons op rest ih =>
      intro s h
      simpa only [List.foldl_cons] using ih _ (applyDataStoreOp_rankedBound s op h)
  exact main ops emptyDataStore ⟨by decide, by decide⟩

/-- Claim C2: for a config and an ip whose relay record exists in the
server entries bucket, after PromoteServerEntry the ranked vector head
equals the ip and the stored affinity filter value equals the filter
value computed from the config; when no record exists for the ip the
datastore is unchanged. -/
theorem claimC2 (s : DataStore) (config : Config) (ipAddress : String) :
    ((∃ v, lookupBucket s.serverEntries ipAddress = some v) →
      (PromoteServerEntry s config ipAddress).ranked.head? = some ipAddress ∧
        lookupBucket (PromoteServerEntry s config ipAddress).keyValues
            DATA_STORE_LAST_SERVER_ENTRY_FILTER_KEY
          = some (makeServerEntryFilterValue config)) ∧
      (lookupBucket s.serverEntries ipAddress = none →
        PromoteServerEntry s config ipAddress = s) := by
  constructor
  · rintro ⟨v, hv⟩
    simp only [PromoteServerEntry, hv]
    exact ⟨insertRankedServerEntry_zero_head s.ranked ipAddress,
      lookupBucket_bucketPut_self _ _ _⟩
  · intro h
    simp only [PromoteServerEntry, h]

/-- Witness for Claim C2 at a concrete datastore holding one relay. -/
theorem claimC2_witness :
    (PromoteServerEntry c2State { egressRegion := "CA" } "10.1.1.1").ranked.head?
        = some "10.1.1.1" ∧
      lookupBucket (PromoteServerEntry c2State { egressRegion := "CA" } "10.1.1.1").keyValues
          DATA_STORE_LAST_SERVER_ENTRY_FILTER_KEY = some "CA" :=
  (claimC2 c2State { egressRegion := "CA" } "10.1.1.1").1 ⟨_, rfl⟩

/-- Claim C3, counterexample to the claim as stated: with a stored value
that decodes to a record with configuration version `-1` and new fields
with the same version and `replaceIfExists = false`, the claim's condition
("a decodable existing record is present, not replacing, not strictly
newer") says the record is not written — but the code's update condition
is true (`exists := existingVersion > -1` is false for version `-1`), and
`StoreServerEntry` does write: the ranked vector changes from `[]` to
`["192.0.2.7"]`. -/
theorem claimC3_counterexample :
    storeServerEntryUpdateDecision (lookupBucket c3State.serverEntries "192.0.2.7")
        (-1) false = true ∧
      claimC3ConditionAsStated (lookupBucket c3State.serverEntries "192.0.2.7")
        (-1) false = false ∧
      c3State.ranked = [] ∧
      (StoreServerEntry c3State c3Fields false).2.ranked = ["192.0.2.7"] := by
  decide

/-- Claim C3 as amended: an existing record counts as present only when
it decodes and its configuration version is greater than `-1`;
`StoreServerEntry` writes iff no such record is present, or
`replaceIfExists`, or the present record's version is strictly less than
the new one — and whenever it writes, the record lands at the fields' IP
address and the IP is inserted into the ranked vector at position 1
within the same transaction; when it does not write the datastore is
unchanged. -/
theorem claimC3 (s : DataStore) (f : ServerEntryFields) (replaceIfExists : Bool)
    (hv : f.isValid = true) :
    (storeServerEntryUpdateDecision (lookupBucket s.serverEntries f.ipAddress)
          f.configurationVersion replaceIfExists
        = amendedC3Condition (lookupBucket s.serverEntries f.ipAddress)
            f.configurationVersion replaceIfExists) ∧
      (storeServerEntryUpdateDecision (lookupBucket s.serverEntries f.ipAddress)
            f.configurationVersion replaceIfExists = true →
        (StoreServerEntry s f replaceIfExists).2
          = { s with
              serverEntries :=
                bucketPut s.serverEntries f.ipAddress
                  (StoredValue.entry (fieldsToServerEntry f))
              ranked := insertRankedServerEntry s.ranked f.ipAddress 1 }) ∧
      (storeServerEntryUpdateDecision (lookupBucket s.serverEntries f.ipAddress)
            f.configurationVersion replaceIfExists = false →
        (StoreServerEntry s f replaceIfExists).2 = s) := by
  refine ⟨?_, ?_, ?_⟩
  · rcases hdata : lookupBucket s.serverEntries f.ipAddress with _ | v
    · rfl
    · rcases v with se | bytes
      · simp [storeServerEntryUpdateDecision, amendedC3Condition,
          existingConfigurationVersionOf, decodeStoredValue]
      · rfl
  · intro hdec
    simp [StoreServerEntry, hv, hdec]
  · intro hdec
    simp [StoreServerEntry, hv, hdec]

/-- Witness for Claim C3: storing a validated relay into the empty
datastore writes the record and inserts the IP at position 1. -/
theorem claimC3_witness :
    (StoreServerEntry emptyDataStore relayA false).2
      = { emptyDataStore with
          serverEntries :=
            bucketPut emptyDataStore.serverEntries relayA.ipAddress
              (StoredValue.entry (fieldsToServerEntry relayA))
          ranked := insertRankedServerEntry emptyDataStore.ranked relayA.ipAddress 1 } :=
  (claimC3 emptyDataStore relayA false (by decide)).2.1 (by decide)

/-- Claim C4, counterexample: after storing relays A, B, C from empty,
the ranked vector is not `[C, B, A]`. -/
theorem claimC4_counterexample :
    c4FinalState.ranked ≠ ["192.0.2.3", "192.0.2.2", "192.0.2.1"] := by
  decide

/-- Claim C4 as amended: after StoreServerEntry of relays A, B, C from an
empty datastore with `replaceIfExists = false`, the ranked vector equals
`[A, C, B]` — the first stored relay's insert position 1 is clamped to
the end of the then-singleton array, so A stays at the head, and each
subsequent relay is inserted at position 1. -/
theorem claimC4 :
    c4FinalState.ranked = ["192.0.2.1", "192.0.2.3", "192.0.2.2"] := by
  decide

/-- Claim C5, code evaluated at the failing input: store stats `stat1`
and `stat2`, take both out (the take-out returns both), crash and reopen
(which resets all records to Unreported) — `CountUnreportedPersistentStats`
then returns 1, not 2, because its per-bucket loop breaks after the first
Unreported record. -/
theorem claimC5 :
    (TakeOutUnreportedPersistentStats (fun _ => true) c5StoredState 10).1
        = [(PERSISTENT_STAT_TYPE_REMOTE_SERVER_LIST, ["stat1", "stat2"])] ∧
      CountUnreportedPersistentStats c5AfterReopenState = 1 := by
  decide

/-- Claim C6, code evaluated at the failing input: on a freshly opened
datastore, with a config whose egress region is the empty string,
`hasServerEntryFilterChanged` returns `false` — the absent stored value is
read as nil and `bytes.Compare` treats nil as equal to the empty current
filter value — while the claim (and the code's own comment) says `true`. -/
theorem claimC6 :
    hasServerEntryFilterChanged emptyDataStore { egressRegion := "" } = false ∧
      hasServerEntryFilterChanged emptyDataStore { egressRegion := "CA" } = true := by
  decide

/-- Claim C7, counterexample to the claim as stated: when the open, the
bucket bootstrap and the obsolete-bucket sweep succeed but the
post-open reset fails, `OpenDataStore` still returns success — the reset
error is not surfaced. -/
theorem claimC7_counterexample :
    openDataStoreResult none none none (some "reset failed") = none := rfl

/-- Claim C7 as amended: the result of `OpenDataStore` is independent of
the outcome of `resetAllPersistentStatsToUnreported`; line 171 discards
the reset's return value with `_ =`, so a reset failure is never
surfaced to the caller of Open. -/
theorem claimC7 (openResult createBucketsResult deleteObsoleteBucketResult
    resetResult resetResult2 : Option String) :
    openDataStoreResult openResult createBucketsResult deleteObsoleteBucketResult resetResult
      = openDataStoreResult openResult createBucketsResult deleteObsoleteBucketResult
          resetResult2 := by
  cases openResult with
  | some e => rfl
  | none =>
    cases createBucketsResult with
    | some e => rfl
    | none =>
      cases deleteObsoleteBucketResult with
      | some e => rfl
      | none =>
        cases resetResult <;> cases resetResult2 <;> rfl

/-- Claim C9, code evaluated at the failing input: when the ETag-bucket
`Put` fails and the data-bucket `Put` succeeds, the `Update` body of
`SetSplitTunnelRoutes` returns success — the first error was assigned to
`err` and immediately overwritten by the second `Put`'s result, so it is
lost instead of surfaced. -/
theorem claimC9 :
    setSplitTunnelRoutesTxBody (some "etag write failed") none = none := rfl

/-! ### Persistent stat queue lemmas -/

theorem statBucketGet_statBucketSet_self (s : DataStore) (t : String)
    (b : List (String × StatState)) : statBucketGet (statBucketSet s t b) t = b := by
  simp [statBucketGet, statBucketSet, lookupBucket_bucketPut_self]

/-- After `PutBack` writes `Unreported` for a list of keys, every one of
those keys (and every key already `Unreported`) reads as `Unreported`. -/
theorem lookup_putAll_unreported (ks : List String) :
    ∀ (b : List (String × StatState)) (k : String),
      k ∈ ks ∨ lookupBucket b k = some StatState.unreported →
      lookupBucket (ks.foldl (fun bb kk => bucketPut bb kk StatState.unreported) b) k
        = some StatState.unreported := by
  induction ks with
  | nil =>
    intro b k h
    rcases h with h | h
    · exact absurd h (List.not_mem_nil k)
    · simpa using h
  | cons k0 rest ih =>
    intro b k h
    simp only [List.foldl_cons]
    apply ih
    by_cases hkk : k = k0
    · right
      subst hkk
      exact lookupBucket_bucketPut_self b k StatState.unreported
    · rcases h with h | h
      · rcases List.mem_cons.mp h with h1 | h2
        · exact absurd h1 hkk
        · exact Or.inl h2
      · right
        rw [lookupBucket_bucketPut_ne b k0 k StatState.unreported hkk]
        exact h

/-- The take-out scan collects every `Unreported` record with parsable
key when `maxCount` leaves room for the whole bucket. -/
theorem takeOutScan_mem (jsonOK : String → Bool) (maxCount : Nat) :
    ∀ (b : List (String × StatState)) (count : Nat),
      count + b.length ≤ maxCount →
      ∀ k, (k, StatState.unreported) ∈ b → jsonOK k = true →
        k ∈ (takeOutScan jsonOK maxCount b count).1 := by
  intro b
  induction b with
  | nil =>
    intro count hcnt k hk
    exact absurd hk (List.not_mem_nil _)
  | cons p rest ih =>
    intro count hcnt k hk hjson
    obtain ⟨key, value⟩ := p
    simp only [List.length_cons] at hcnt
    simp only [takeOutScan]
    rw [if_neg (by omega : ¬ maxCount ≤ count)]
    by_cases hj : jsonOK key = false
    · rw [if_pos hj]
      rcases List.mem_cons.mp hk with heq | hmem
      · have hkey : k = key := congrArg Prod.fst heq
        subst hkey
        rw [hjson] at hj
        exact absurd hj (by decide)
      · exact ih count (by omega) k hmem hjson
    · rw [if_neg hj]
      by_cases hval : value = StatState.unreported
      · rw [if_pos hval]
        rcases List.mem_cons.mp hk with heq | hmem
        · have hkey : k = key := congrArg Prod.fst heq
          subst hkey
          exact List.mem_cons_self _ _
        · exact List.mem_cons_of_mem _ (ih (count + 1) (by omega) k hmem hjson)
      · rw [if_neg hval]
        rcases List.mem_cons.mp hk with heq | hmem
        · exact absurd (congrArg Prod.snd heq).symm hval
        · exact ih count (by omega) k hmem hjson

/-- Claim C8: for a set of records previously taken out, putting them
back and taking out again with `maxCount` at least the total number of
stored records returns a superset, when nothing intervenes. -/
theorem claimC8 (s : DataStore) (stats : List (String × List String))
    (jsonOK : String → Bool) (maxCount : Nat)
    (hJson : ∀ t k, k ∈ statsGet stats t → jsonOK k = true)
    (hTypes : ∀ t, t ∉ persistentStatTypes → statsGet stats t = [])
    (hMax : totalPersistentStatRecords (PutBackUnreportedPersistentStats s stats) ≤ maxCount)
    (t k : String) (hk : k ∈ statsGet stats t) :
    k ∈ statsGet
        (TakeOutUnreportedPersistentStats jsonOK
          (PutBackUnreportedPersistentStats s stats) maxCount).1 t := by
  have ht : t ∈ persistentStatTypes := by
    by_contra hmem
    rw [hTypes t hmem] at hk
    exact absurd hk (List.not_mem_nil k)
  have ht2 : t = PERSISTENT_STAT_TYPE_REMOTE_SERVER_LIST := by
    simpa [persistentStatTypes] using ht
  subst ht2
  have hBucket : statBucketGet (PutBackUnreportedPersistentStats s stats)
      PERSISTENT_STAT_TYPE_REMOTE_SERVER_LIST
      = (statsGet stats PERSISTENT_STAT_TYPE_REMOTE_SERVER_LIST).foldl
          (fun bb kk => bucketPut bb kk StatState.unreported)
          (statBucketGet s PERSISTENT_STAT_TYPE_REMOTE_SERVER_LIST) :=
    statBucketGet_statBucketSet_self _ _ _
  have hLookup := lookup_putAll_unreported
    (statsGet stats PERSISTENT_STAT_TYPE_REMOTE_SERVER_LIST)
    (statBucketGet s PERSISTENT_STAT_TYPE_REMOTE_SERVER_LIST) k (Or.inl hk)
  have hMem := mem_of_lookupBucket hLookup
  have hLen : ((statsGet stats PERSISTENT_STAT_TYPE_REMOTE_SERVER_LIST).foldl
      (fun bb kk => bucketPut bb kk StatState.unreported)
      (statBucketGet s PERSISTENT_STAT_TYPE_REMOTE_SERVER_LIST)).length ≤ maxCount := by
    have htot : totalPersistentStatRecords (PutBackUnreportedPersistentStats s stats)
        = ((statsGet stats PERSISTENT_STAT_TYPE_REMOTE_SERVER_LIST).foldl
            (fun bb kk => bucketPut bb kk StatState.unreported)
            (statBucketGet s PERSISTENT_STAT_TYPE_REMOTE_SERVER_LIST)).length := by
      simp [totalPersistentStatRecords, persistentStatTypes, hBucket]
    omega
  have hTake := takeOutScan_mem jsonOK maxCount
    ((statsGet stats PERSISTENT_STAT_TYPE_REMOTE_SERVER_LIST).foldl
      (fun bb kk => bucketPut bb kk StatState.unreported)
      (statBucketGet s PERSISTENT_STAT_TYPE_REMOTE_SERVER_LIST))
    0 (by omega) k hMem (hJson _ k hk)
  have hner := List.ne_nil_of_mem hTake
  have hTO : (TakeOutUnreportedPersistentStats jsonOK
      (PutBackUnreportedPersistentStats s stats) maxCount).1
      = (if (takeOutScan jsonOK maxCount
            ((statsGet stats PERSISTENT_STAT_TYPE_REMOTE_SERVER_LIST).foldl
              (fun bb kk => bucketPut bb kk StatState.unreported)
              (statBucketGet s PERSISTENT_STAT_TYPE_REMOTE_SERVER_LIST)) 0).1 = []
         then []
         else [(PERSISTENT_STAT_TYPE_REMOTE_SERVER_LIST,
            (takeOutScan jsonOK maxCount
              ((statsGet stats PERSISTENT_STAT_TYPE_REMOTE_SERVER_LIST).foldl
                (fun bb kk => bucketPut bb kk StatState.unreported)
                (statBucketGet s PERSISTENT_STAT_TYPE_REMOTE_SERVER_LIST)) 0).1)]) := by
    simp only [TakeOutUnreportedPersistentStats, persistentStatTypes, List.foldl_cons,
      List.foldl_nil, List.nil_append, hBucket]
  rw [hTO, if_neg hner]
  simpa [statsGet, lookupBucket] using hTake

/-- Witness for Claim C8: a taken-out record put back is returned by the
next take-out. -/
theorem claimC8_witness :
    "statA" ∈ statsGet
        (TakeOutUnreportedPersistentStats (fun _ => true)
          (PutBackUnreportedPersistentStats c8State c8Taken) 10).1
        PERSISTENT_STAT_TYPE_REMOTE_SERVER_LIST := by
  refine claimC8 c8State c8Taken (fun _ => true) 10 ?_ ?_ ?_
    PERSISTENT_STAT_TYPE_REMOTE_SERVER_LIST "statA" ?_
  · intro t k _
    rfl
  · intro t ht
    have hne : ¬ (remoteServerListStatsBucket = t) := by
      intro hcontra
      exact ht (by
        simp [persistentStatTypes, PERSISTENT_STAT_TYPE_REMOTE_SERVER_LIST, hcontra])
    simp [c8Taken, statsGet, lookupBucket, hne]
  · decide
  · decide

/-! ### Bulk import -/

theorem StoreServerEntry_invalid (s : DataStore) (f : ServerEntryFields)
    (r : Bool) (h : f.isValid = false) :
    StoreServerEntry s f r = (some "invalid server entry", s) := by
  unfold StoreServerEntry
  rw [if_pos h]

theorem StoreServerEntry_fst_valid (s : DataStore) (f : ServerEntryFields)
    (r : Bool) (h : f.isValid = true) :
    (StoreServerEntry s f r).1 = none := by
  unfold StoreServerEntry
  rw [if_neg (by simp [h])]
  dsimp only
  split <;> rfl

/-- Claim C10: bulk import is not atomic — `StoreServerEntries` and
`StreamingStoreServerEntries` store each entry in its own transaction in
list order; when the k-th entry fails, the error is returned while the
first k−1 entries remain committed (the final state is exactly the fold
of the successful stores, with no rollback and the remaining entries
untouched). -/
theorem claimC10 (s : DataStore) (good : List ServerEntryFields) (bad : ServerEntryFields)
    (rest : List ServerEntryFields) (replaceIfExists : Bool)
    (hgood : ∀ f ∈ good, f.isValid = true) (hbad : bad.isValid = false) :
    StoreServerEntries s (good ++ bad :: rest) replaceIfExists
        = (some "invalid server entry",
            good.foldl (fun st f => (StoreServerEntry st f replaceIfExists).2) s) ∧
      StreamingStoreServerEntries s
          (good.map Except.ok ++ Except.ok bad :: rest.map Except.ok) replaceIfExists
        = (some "invalid server entry",
            good.foldl (fun st f => (StoreServerEntry st f replaceIfExists).2) s) := by
  induction good generalizing s with
  | nil =>
    constructor
    · simp [StoreServerEntries, StoreServerEntry_invalid s bad replaceIfExists hbad]
    · simp [StreamingStoreServerEntries, StoreServerEntry_invalid s bad replaceIfExists hbad]
  | cons f good2 ih =>
    have hf : f.isValid = true := hgood f (List.mem_cons_self f good2)
    have hgood2 : ∀ g ∈ good2, g.isValid = true :=
      fun g hg => hgood g (List.mem_cons_of_mem f hg)
    obtain ⟨ih1, ih2⟩ := ih (StoreServerEntry s f replaceIfExists).2 hgood2
    constructor
    · rw [List.cons_append, List.foldl_cons]
      simp only [StoreServerEntries, StoreServerEntry_fst_valid s f replaceIfExists hf]
      exact ih1
    · rw [List.map_cons, List.cons_append, List.foldl_cons]
      simp only [StreamingStoreServerEntries, StoreServerEntry_fst_valid s f replaceIfExists hf]
      exact ih2

/-- Witness for Claim C10: storing `[A, invalid, C]` from empty returns
the validation error, commits A, and never stores C. -/
theorem claimC10_witness :
    StoreServerEntries emptyDataStore [relayA, invalidRelay, relayC] false
      = (some "invalid server entry", (StoreServerEntry emptyDataStore relayA false).2) := by
  have h := (claimC10 emptyDataStore [relayA] invalidRelay [relayC] false
    (by decide) (by decide)).1
  simpa using h

end Psiphon
